import Mathlib

/-!
# pulumi-eks-go: the declared EKS topology

A shallow embedding of `src/pulumi-eks-go/main.go`.  The program is one
function handed to `pulumi.Run`: a straight sequence of provider-SDK
constructor calls (`ec2.NewVpc`, `ec2.NewSubnet`, ...), two `for ... range`
loops that attach managed policies to IAM roles, and an `if err != nil
{ return err }` after every call.

The SDK and the provisioning engine are external.  A constructor call queues
one registration and hands back, with a `nil` error, a handle to the new
resource; the outputs of a handle (`ID()`, `Arn`, `Name`) are symbolic
references that later declarations take as inputs.  A queued registration is
sent to the engine once the resources it refers to have been accepted, and is
never sent when one of them was not.  The engine is modelled as an arbitrary
function that answers a registration with success (`none`) or with an error;
a rejection surfaces from `pulumi.Run`, which waits for the registrations
after the function has returned.
-/

namespace PulumiEksGo

/-! ## Data model -/

/-- A Go `error` value. -/
abbrev Err := String

/-- The resource types that `main.go` declares. -/
inductive Kind where
  | Vpc
  | Subnet
  | Eip
  | NatGateway
  | InternetGateway
  | RouteTable
  | RouteTableAssociation
  | Role
  | RolePolicyAttachment
  | SecurityGroup
  | Cluster
  | NodeGroup
deriving DecidableEq, Repr

/-- A handle to a registered resource (the `*ec2.Vpc`, `*iam.Role`, ... that a
constructor returns).  The engine identifies a resource by its type and its
logical name, and so does the handle. -/
structure Resource where
  kind : Kind
  name : String
deriving DecidableEq, Repr

/-- The output properties of a resource that the program reads. -/
inductive Attr where
  | ID
  | Arn
  | Name
deriving DecidableEq, Repr

/-- A `pulumi.Output`: the not-yet-known value of one property of one resource. -/
structure Output where
  res : Resource
  attr : Attr
deriving DecidableEq, Repr

/-- A `pulumi.StringInput`: either a literal (`pulumi.String(...)`) or an
output of another resource. -/
inductive Input where
  | str (s : String)
  | out (o : Output)
deriving DecidableEq, Repr

/-- A `pulumi.StringMap` (the program only builds one-entry `Tags` maps). -/
abbrev StringMap := List (String × Input)

/-- A `pulumi.StringArray`. -/
abbrev StringArray := List Input

/-- The method `ID()` of a resource handle. -/
def Resource.ID (r : Resource) : Input := .out ⟨r, .ID⟩

/-- The field `Arn` of a resource handle. -/
def Resource.Arn (r : Resource) : Input := .out ⟨r, .Arn⟩

/-- The field `Name` of a resource handle. -/
def Resource.Name (r : Resource) : Input := .out ⟨r, .Name⟩

/-- The conversion `ToStringOutput()` of an ID output: the same output, retyped. -/
def Input.ToStringOutput (i : Input) : Input := i

namespace ec2

structure VpcArgs where
  CidrBlock : Input
  EnableDnsHostnames : Bool
  InstanceTenancy : Input
  Tags : StringMap
deriving DecidableEq, Repr

structure SubnetArgs where
  VpcId : Input
  CidrBlock : Input
  AvailabilityZone : Input
  Tags : StringMap
deriving DecidableEq, Repr

structure EipArgs where
  Vpc : Bool
deriving DecidableEq, Repr

structure NatGatewayArgs where
  AllocationId : Input
  SubnetId : Input
  Tags : StringMap
deriving DecidableEq, Repr

structure InternetGatewayArgs where
  VpcId : Input
  Tags : StringMap
deriving DecidableEq, Repr

structure RouteTableRouteArgs where
  CidrBlock : Input
  GatewayId : Input
deriving DecidableEq, Repr

structure RouteTableArgs where
  VpcId : Input
  Routes : List RouteTableRouteArgs
  Tags : StringMap
deriving DecidableEq, Repr

structure RouteTableAssociationArgs where
  SubnetId : Input
  RouteTableId : Input
deriving DecidableEq, Repr

/-- The shape shared by `SecurityGroupEgressArgs` and `SecurityGroupIngressArgs`. -/
structure SecurityGroupRuleArgs where
  Protocol : Input
  FromPort : Int
  ToPort : Int
  CidrBlocks : StringArray
deriving DecidableEq, Repr

structure SecurityGroupArgs where
  VpcId : Input
  Egress : List SecurityGroupRuleArgs
  Ingress : List SecurityGroupRuleArgs
  Tags : StringMap
deriving DecidableEq, Repr

end ec2

namespace iam

structure RoleArgs where
  AssumeRolePolicy : Input
deriving DecidableEq, Repr

structure RolePolicyAttachmentArgs where
  PolicyArn : Input
  Role : Input
deriving DecidableEq, Repr

end iam

namespace eks

structure ClusterVpcConfigArgs where
  PublicAccessCidrs : StringArray
  SecurityGroupIds : StringArray
  SubnetIds : StringArray
deriving DecidableEq, Repr

structure ClusterArgs where
  RoleArn : Input
  VpcConfig : ClusterVpcConfigArgs
deriving DecidableEq, Repr

structure NodeGroupScalingConfigArgs where
  DesiredSize : Int
  MinSize : Int
  MaxSize : Int
deriving DecidableEq, Repr

structure NodeGroupArgs where
  ClusterName : Input
  SubnetIds : StringArray
  NodeRoleArn : Input
  ScalingConfig : NodeGroupScalingConfigArgs
  Tags : StringMap
deriving DecidableEq, Repr

end eks

/-- One resource declaration: what a constructor call submits to the engine,
namely the resource type, the logical name and the argument record. -/
inductive Decl where
  | Vpc (name : String) (args : ec2.VpcArgs)
  | Subnet (name : String) (args : ec2.SubnetArgs)
  | Eip (name : String) (args : ec2.EipArgs)
  | NatGateway (name : String) (args : ec2.NatGatewayArgs)
  | InternetGateway (name : String) (args : ec2.InternetGatewayArgs)
  | RouteTable (name : String) (args : ec2.RouteTableArgs)
  | RouteTableAssociation (name : String) (args : ec2.RouteTableAssociationArgs)
  | Role (name : String) (args : iam.RoleArgs)
  | RolePolicyAttachment (name : String) (args : iam.RolePolicyAttachmentArgs)
  | SecurityGroup (name : String) (args : ec2.SecurityGroupArgs)
  | Cluster (name : String) (args : eks.ClusterArgs)
  | NodeGroup (name : String) (args : eks.NodeGroupArgs)
deriving DecidableEq, Repr

/-- The resource type of a declaration. -/
def Decl.kind : Decl → Kind
  | .Vpc _ _ => .Vpc
  | .Subnet _ _ => .Subnet
  | .Eip _ _ => .Eip
  | .NatGateway _ _ => .NatGateway
  | .InternetGateway _ _ => .InternetGateway
  | .RouteTable _ _ => .RouteTable
  | .RouteTableAssociation _ _ => .RouteTableAssociation
  | .Role _ _ => .Role
  | .RolePolicyAttachment _ _ => .RolePolicyAttachment
  | .SecurityGroup _ _ => .SecurityGroup
  | .Cluster _ _ => .Cluster
  | .NodeGroup _ _ => .NodeGroup

/-- The logical name of a declaration (the second argument of the constructor). -/
def Decl.name : Decl → String
  | .Vpc n _ => n
  | .Subnet n _ => n
  | .Eip n _ => n
  | .NatGateway n _ => n
  | .InternetGateway n _ => n
  | .RouteTable n _ => n
  | .RouteTableAssociation n _ => n
  | .Role n _ => n
  | .RolePolicyAttachment n _ => n
  | .SecurityGroup n _ => n
  | .Cluster n _ => n
  | .NodeGroup n _ => n

/-- The handle a constructor returns for a declaration. -/
def Decl.handle (d : Decl) : Resource := ⟨d.kind, d.name⟩

/-! ## The function body: context and effects -/

/-- A registration as the function queued it: `loopIndex` is `some i` when the
constructor call was made from the body of a `for i, _ := range ...` loop at
iteration `i`, and `none` when it was made from a straight-line statement of
the function body. -/
structure Issued where
  decl : Decl
  loopIndex : Option Nat
deriving DecidableEq, Repr

/-- What a statement can read besides its variables: the iteration of the
enclosing range loop, if any. -/
structure Ctx where
  loopIndex : Option Nat

/-- What a statement can change: the registrations queued so far (in call
order) and the lines printed to standard output. -/
structure World where
  issued : List Issued
  stdout : List String
deriving DecidableEq, Repr

/-- A piece of the function body: it runs in a context, changes the world, and
either yields a value or makes the whole function return an error. -/
def M (α : Type) : Type := Ctx → World → World × Except Err α

instance : Monad M where
  pure a := fun _ w => (w, .ok a)
  bind m f := fun c w =>
    match m c w with
    | (w1, .ok a) => f a c w1
    | (w1, .error e) => (w1, .error e)

/-- The statement `return err`. -/
def returnErr {α : Type} (err : Err) : M α := fun _ w => (w, .error err)

/-- The call `fmt.Println(s)`. -/
def Println (s : String) : M Unit := fun _ w =>
  ({ w with stdout := w.stdout ++ [s] }, .ok ())

/-- The pattern `x, err := call; if err != nil { handler }`, for a handler
other than a bare `return err`. -/
def onErr {α : Type} (call : M α) (handler : Err → M α) : M α := fun c w =>
  match call c w with
  | (w1, .ok a) => (w1, .ok a)
  | (w1, .error e) => handler e c w1

/-- The registration every SDK constructor performs: the declaration is
queued, and the caller gets the handle of the new resource together with a
`nil` error.  The engine is not asked here; its answer arrives later and never
becomes the `err` of the constructor call. -/
def RegisterResource (d : Decl) : M Resource := fun c w =>
  match w with
  | ⟨issued, stdout⟩ => (⟨issued ++ [⟨d, c.loopIndex⟩], stdout⟩, .ok d.handle)

/-- The loop `for i, x := range xs { body }`, counting from `i`. -/
def forRangeFrom {α : Type} (i : Nat) : List α → (Nat → α → M Unit) → M Unit
  | [], _ => pure ()
  | x :: xs, body => do
    (fun c => body i x { c with loopIndex := some i })
    forRangeFrom (i + 1) xs body

/-- The loop `for i, x := range xs { body }`. -/
def forRange {α : Type} (xs : List α) (body : Nat → α → M Unit) : M Unit :=
  forRangeFrom 0 xs body

/-- Formatting on characters: the text up to the first `%d` is copied, the
verb is replaced by the decimal digits of `i`, and the rest is copied. -/
def SprintfChars (i : Nat) : List Char → List Char
  | [] => []
  | '%' :: 'd' :: rest => (Nat.toDigits 10 i) ++ rest
  | c :: rest => c :: SprintfChars i rest

/-- The call `fmt.Sprintf(format, i)` for a format whose only verb is one `%d`
and an index `i ≥ 0` (the two formats of the program are of this kind). -/
def Sprintf (format : String) (i : Nat) : String :=
  ⟨SprintfChars i format.data⟩

namespace ec2

/-- The constructor `ec2.NewVpc(ctx, name, args)`. -/
def NewVpc (name : String) (args : VpcArgs) : M Resource :=
  RegisterResource (.Vpc name args)

/-- The constructor `ec2.NewSubnet(ctx, name, args)`. -/
def NewSubnet (name : String) (args : SubnetArgs) : M Resource :=
  RegisterResource (.Subnet name args)

/-- The constructor `ec2.NewEip(ctx, name, args)`. -/
def NewEip (name : String) (args : EipArgs) : M Resource :=
  RegisterResource (.Eip name args)

/-- The constructor `ec2.NewNatGateway(ctx, name, args)`. -/
def NewNatGateway (name : String) (args : NatGatewayArgs) : M Resource :=
  RegisterResource (.NatGateway name args)

/-- The constructor `ec2.NewInternetGateway(ctx, name, args)`. -/
def NewInternetGateway (name : String) (args : InternetGatewayArgs) : M Resource :=
  RegisterResource (.InternetGateway name args)

/-- The constructor `ec2.NewRouteTable(ctx, name, args)`. -/
def NewRouteTable (name : String) (args : RouteTableArgs) : M Resource :=
  RegisterResource (.RouteTable name args)

/-- The constructor `ec2.NewRouteTableAssociation(ctx, name, args)`. -/
def NewRouteTableAssociation (name : String) (args : RouteTableAssociationArgs) : M Resource :=
  RegisterResource (.RouteTableAssociation name args)

/-- The constructor `ec2.NewSecurityGroup(ctx, name, args)`. -/
def NewSecurityGroup (name : String) (args : SecurityGroupArgs) : M Resource :=
  RegisterResource (.SecurityGroup name args)

end ec2

namespace iam

/-- The constructor `iam.NewRole(ctx, name, args)`. -/
def NewRole (name : String) (args : RoleArgs) : M Resource :=
  RegisterResource (.Role name args)

/-- The constructor `iam.NewRolePolicyAttachment(ctx, name, args)`. -/
def NewRolePolicyAttachment (name : String) (args : RolePolicyAttachmentArgs) : M Resource :=
  RegisterResource (.RolePolicyAttachment name args)

end iam

namespace eks

/-- The constructor `eks.NewCluster(ctx, name, args)`. -/
def NewCluster (name : String) (args : ClusterArgs) : M Resource :=
  RegisterResource (.Cluster name args)

/-- The constructor `eks.NewNodeGroup(ctx, name, args)`. -/
def NewNodeGroup (name : String) (args : NodeGroupArgs) : M Resource :=
  RegisterResource (.NodeGroup name args)

end eks

/-! ## The program -/

/-- The function that `main` hands to `pulumi.Run` (`main.go`, lines 14-438).
The local `prefix` of the source is called `pfx` here. -/
def main : M Unit := do
  let pfx := "pulumi-eks-go"

  -- VPC CIDR
  let cidrBlock := "10.0.0.0/16"

  -- VPC Args
  let vpcArgs : ec2.VpcArgs := {
    CidrBlock := .str cidrBlock
    EnableDnsHostnames := true
    InstanceTenancy := .str "default"
    Tags := [("Name", .str (pfx ++ "-vpc"))]
  }

  -- VPC
  let vpc ← onErr (ec2.NewVpc (pfx ++ "-vpc") vpcArgs) (fun err => do
    Println err
    returnErr err)

  -- 3 Private Subnets
  let privSubnet1 ← ec2.NewSubnet (pfx ++ "-priv-subnet-1") {
    VpcId := vpc.ID
    CidrBlock := .str "10.0.1.0/24"
    AvailabilityZone := .str "us-east-2a"
    Tags := [("Name", .str (pfx ++ "-priv-subnet-1"))]
  }
  let privSubnet2 ← ec2.NewSubnet (pfx ++ "-priv-subnet-2") {
    VpcId := vpc.ID
    CidrBlock := .str "10.0.2.0/24"
    AvailabilityZone := .str "us-east-2b"
    Tags := [("Name", .str (pfx ++ "-priv-subnet-2"))]
  }
  let privSubnet3 ← ec2.NewSubnet (pfx ++ "-priv-subnet-3") {
    VpcId := vpc.ID
    CidrBlock := .str "10.0.3.0/24"
    AvailabilityZone := .str "us-east-2c"
    Tags := [("Name", .str (pfx ++ "-priv-subnet-3"))]
  }

  -- 3 Public Subnets
  let pubSubnet1 ← ec2.NewSubnet (pfx ++ "-pub-subnet-1") {
    VpcId := vpc.ID
    CidrBlock := .str "10.0.4.0/24"
    AvailabilityZone := .str "us-east-2a"
    Tags := [("Name", .str (pfx ++ "-pub-subnet-1"))]
  }
  let pubSubnet2 ← ec2.NewSubnet (pfx ++ "-pub-subnet-2") {
    VpcId := vpc.ID
    CidrBlock := .str "10.0.5.0/24"
    AvailabilityZone := .str "us-east-2b"
    Tags := [("Name", .str (pfx ++ "-pub-subnet-2"))]
  }
  let pubSubnet3 ← ec2.NewSubnet (pfx ++ "-pub-subnet-3") {
    VpcId := vpc.ID
    CidrBlock := .str "10.0.6.0/24"
    AvailabilityZone := .str "us-east-2c"
    Tags := [("Name", .str (pfx ++ "-pub-subnet-3"))]
  }

  -- EIP for NAT GW
  let eip1 ← ec2.NewEip (pfx ++ "-eip1") {
    Vpc := true
  }

  -- NAT Gateway with EIP
  let natGw1 ← ec2.NewNatGateway (pfx ++ "-nat-gw-1") {
    AllocationId := eip1.ID
    -- NAT must reside in public subnet for private instance internet access
    SubnetId := pubSubnet1.ID
    Tags := [("Name", .str (pfx ++ "-nat-gw-1"))]
  }

  -- IGW for the Public Subnets
  let igw1 ← ec2.NewInternetGateway (pfx ++ "-gw") {
    VpcId := vpc.ID
    Tags := [("Name", .str (pfx ++ "-gw"))]
  }

  -- Private Route Table for Private Subnets
  let privateRouteTable ← ec2.NewRouteTable (pfx ++ "-rtb-private-1") {
    VpcId := vpc.ID
    Routes := [
      -- To Internet via NAT
      { CidrBlock := .str "0.0.0.0/0", GatewayId := natGw1.ID }
    ]
    Tags := [("Name", .str (pfx ++ "-rtb-private-1"))]
  }

  -- Public Route Table for Public Subnets
  let publicRouteTable ← ec2.NewRouteTable (pfx ++ "-rtb-public-1") {
    VpcId := vpc.ID
    Routes := [
      -- To Internet via IGW
      { CidrBlock := .str "0.0.0.0/0", GatewayId := igw1.ID }
    ]
    Tags := [("Name", .str (pfx ++ "-rtb-public-1"))]
  }

  -- Associate Private Subs with Private Route Tables
  let _ ← ec2.NewRouteTableAssociation (pfx ++ "-rtb-assoc-priv-1") {
    SubnetId := privSubnet1.ID
    RouteTableId := privateRouteTable.ID
  }
  let _ ← ec2.NewRouteTableAssociation (pfx ++ "-rtb-assoc-priv-2") {
    SubnetId := privSubnet2.ID
    RouteTableId := privateRouteTable.ID
  }
  let _ ← ec2.NewRouteTableAssociation (pfx ++ "-rtb-assoc-priv-3") {
    SubnetId := privSubnet3.ID
    RouteTableId := privateRouteTable.ID
  }

  -- Associate Public Subs with Public Route Tables
  let _ ← ec2.NewRouteTableAssociation (pfx ++ "-rtb-assoc-pub-1") {
    SubnetId := pubSubnet1.ID
    RouteTableId := publicRouteTable.ID
  }
  let _ ← ec2.NewRouteTableAssociation (pfx ++ "-rtb-assoc-pub-2") {
    SubnetId := pubSubnet2.ID
    RouteTableId := publicRouteTable.ID
  }
  let _ ← ec2.NewRouteTableAssociation (pfx ++ "-rtb-assoc-pub-3") {
    SubnetId := pubSubnet3.ID
    RouteTableId := publicRouteTable.ID
  }

  -- IAM Role for EKS
  let eksRole ← iam.NewRole (pfx ++ "eks-iam-eksRole") {
    AssumeRolePolicy := .str "\x7b\n\t\t    \"Version\": \"2008-10-17\",\n\t\t    \"Statement\": [\x7b\n\t\t        \"Sid\": \"\",\n\t\t        \"Effect\": \"Allow\",\n\t\t        \"Principal\": \x7b\n\t\t            \"Service\": \"eks.amazonaws.com\"\n\t\t        \x7d,\n\t\t        \"Action\": \"sts:AssumeRole\"\n\t\t    \x7d]\n\t\t\x7d"
  }
  let eksPolicies := [
    "arn:aws:iam::aws:policy/AmazonEKSServicePolicy",
    "arn:aws:iam::aws:policy/AmazonEKSClusterPolicy"
  ]
  forRange eksPolicies (fun i eksPolicy => do
    let _ ← iam.NewRolePolicyAttachment (Sprintf (pfx ++ "rpa-%d") i) {
      PolicyArn := .str eksPolicy
      Role := eksRole.Name
    }
    pure ())

  -- Create a Security Group that we can use to actually connect to our cluster
  let clusterSg ← ec2.NewSecurityGroup (pfx ++ "-cluster-sg") {
    VpcId := vpc.ID
    Egress := [
      { Protocol := .str "-1", FromPort := 0, ToPort := 0, CidrBlocks := [.str "0.0.0.0/0"] }
    ]
    Ingress := [
      { Protocol := .str "tcp", FromPort := 80, ToPort := 80, CidrBlocks := [.str "0.0.0.0/0"] }
    ]
    Tags := [("Name", .str (pfx ++ "-cluster-sg"))]
  }

  -- EKS cluster
  let subnetIds : StringArray := []

  let cluster ← eks.NewCluster (pfx ++ "-cluster") {
    RoleArn := eksRole.Arn
    VpcConfig := {
      PublicAccessCidrs := [.str "0.0.0.0/0"]
      SecurityGroupIds := [clusterSg.ID.ToStringOutput]
      SubnetIds := subnetIds ++ [
        privSubnet1.ID,
        privSubnet2.ID,
        privSubnet3.ID,
        pubSubnet1.ID,
        pubSubnet2.ID,
        pubSubnet3.ID
      ]
    }
  }

  -- Create the EC2 NodeGroup Role
  let nodeGroupRole ← iam.NewRole (pfx ++ "nodegroup-iam-role") {
    AssumeRolePolicy := .str "\x7b\n\t\t    \"Version\": \"2012-10-17\",\n\t\t    \"Statement\": [\x7b\n\t\t        \"Sid\": \"\",\n\t\t        \"Effect\": \"Allow\",\n\t\t        \"Principal\": \x7b\n\t\t            \"Service\": \"ec2.amazonaws.com\"\n\t\t        \x7d,\n\t\t        \"Action\": \"sts:AssumeRole\"\n\t\t    \x7d]\n\t\t\x7d"
  }
  let nodeGroupPolicies := [
    "arn:aws:iam::aws:policy/AmazonEKSWorkerNodePolicy",
    "arn:aws:iam::aws:policy/AmazonEKS_CNI_Policy",
    "arn:aws:iam::aws:policy/AmazonEC2ContainerRegistryReadOnly"
  ]
  forRange nodeGroupPolicies (fun i nodeGroupPolicy => do
    let _ ← iam.NewRolePolicyAttachment (Sprintf (pfx ++ "ngpa-%d") i) {
      Role := nodeGroupRole.Name
      PolicyArn := .str nodeGroupPolicy
    }
    pure ())

  let privsubnetIds : StringArray := []

  -- Node Group 1
  let _ ← eks.NewNodeGroup (pfx ++ "-worker-group-1") {
    ClusterName := cluster.Name
    SubnetIds := privsubnetIds ++ [
      privSubnet1.ID,
      privSubnet2.ID,
      privSubnet3.ID
    ]
    NodeRoleArn := nodeGroupRole.Arn
    ScalingConfig := {
      DesiredSize := 1
      MinSize := 1
      MaxSize := 1
    }
    Tags := [("Name", .str (pfx ++ "-worker-group-1"))]
  }

  -- Node Group 2
  let _ ← eks.NewNodeGroup (pfx ++ "-worker-group-2") {
    ClusterName := cluster.Name
    SubnetIds := privsubnetIds ++ [
      privSubnet1.ID,
      privSubnet2.ID,
      privSubnet3.ID
    ]
    NodeRoleArn := nodeGroupRole.Arn
    ScalingConfig := {
      DesiredSize := 1
      MinSize := 1
      MaxSize := 1
    }
    Tags := [("Name", .str (pfx ++ "-worker-group-2"))]
  }

  pure ()

/-! ## References between declarations -/

/-- The inputs of a `Tags` map. -/
def tagInputs (tags : StringMap) : List Input := tags.map Prod.snd

/-- The inputs of a security-group rule. -/
def ruleInputs (r : ec2.SecurityGroupRuleArgs) : List Input := r.Protocol :: r.CidrBlocks

/-- Every string input of a declaration, nested records, arrays and tags included. -/
def Decl.inputs : Decl → List Input
  | .Vpc _ a => [a.CidrBlock, a.InstanceTenancy] ++ tagInputs a.Tags
  | .Subnet _ a => [a.VpcId, a.CidrBlock, a.AvailabilityZone] ++ tagInputs a.Tags
  | .Eip _ _ => []
  | .NatGateway _ a => [a.AllocationId, a.SubnetId] ++ tagInputs a.Tags
  | .InternetGateway _ a => [a.VpcId] ++ tagInputs a.Tags
  | .RouteTable _ a =>
    [a.VpcId] ++ (a.Routes.map fun r => [r.CidrBlock, r.GatewayId]).flatten ++ tagInputs a.Tags
  | .RouteTableAssociation _ a => [a.SubnetId, a.RouteTableId]
  | .Role _ a => [a.AssumeRolePolicy]
  | .RolePolicyAttachment _ a => [a.PolicyArn, a.Role]
  | .SecurityGroup _ a =>
    [a.VpcId] ++ (a.Egress.map ruleInputs).flatten ++ (a.Ingress.map ruleInputs).flatten ++
      tagInputs a.Tags
  | .Cluster _ a =>
    [a.RoleArn] ++ a.VpcConfig.PublicAccessCidrs ++ a.VpcConfig.SecurityGroupIds ++
      a.VpcConfig.SubnetIds
  | .NodeGroup _ a => [a.ClusterName] ++ a.SubnetIds ++ [a.NodeRoleArn] ++ tagInputs a.Tags

/-- The resources whose outputs a declaration takes as inputs. -/
def Decl.refs (d : Decl) : List Resource :=
  d.inputs.filterMap fun i => match i with
    | .out o => some o.res
    | .str _ => none

/-- The dependency edge of the engine's resource graph: among the declarations
`ds`, resource `a` depends on resource `b` when the declaration of `a` takes an
output of `b` as an input. -/
def DependsOn (ds : List Decl) (a b : Resource) : Prop :=
  ∃ d ∈ ds, d.handle = a ∧ b ∈ d.refs

/-! ## The run: engine, delivery, outcome -/

/-- The provisioning engine, as a black box: it lets a registration that
reaches it succeed (`none`) or fail with an error.  It answers each
registration on its own: registrations are sent concurrently, in an order the
program does not decide, and that order is not modelled. -/
abbrev Engine := Decl → Option Err

/-- What became of a queued registration: the engine accepted it, the engine
rejected it, or it was never sent because a resource it refers to was not
accepted. -/
inductive Fate where
  | accepted
  | rejected (err : Err)
  | notSent
deriving DecidableEq, Repr

/-- Delivery of the queued registrations, in the order they were queued;
`acc` lists the resources accepted so far.  A registration is sent when every
resource it refers to has been accepted. -/
def settle (engine : Engine) : List Resource → List Decl → List (Decl × Fate)
  | _, [] => []
  | acc, d :: ds =>
    if ∀ r ∈ d.refs, r ∈ acc then
      match engine d with
      | none => (d, .accepted) :: settle engine (acc ++ [d.handle]) ds
      | some e => (d, .rejected e) :: settle engine acc ds
    else (d, .notSent) :: settle engine acc ds

/-- The registrations that reached the engine. -/
def arrivedOf (ss : List (Decl × Fate)) : List Decl :=
  (ss.filter fun p => p.2 ≠ Fate.notSent).map Prod.fst

/-- The resources the engine accepted. -/
def acceptedOf (ss : List (Decl × Fate)) : List Resource :=
  (ss.filter fun p => p.2 = Fate.accepted).map fun p => p.1.handle

/-- The errors of the rejected registrations. -/
def rejectionsOf (ss : List (Decl × Fate)) : List Err :=
  ss.filterMap fun p => match p.2 with
    | .rejected e => some e
    | _ => none

/-- The failure `pulumi.Run` reports: the error the function returned, or the
rejections collected while waiting for the registrations (`waiting for RPCs`).
Of several rejections the run reports one; which one depends on the order in
which concurrent registrations complete, so the model keeps them all, in
program order. -/
inductive RunError where
  | returned (err : Err)
  | waitingForRPCs (errs : List Err)
deriving DecidableEq, Repr

/-- What `pulumi.Run` reports, from what the function returned and the
rejections of the engine. -/
def report : Option Err → List Err → Option RunError
  | some e, _ => some (.returned e)
  | none, [] => none
  | none, e :: es => some (.waitingForRPCs (e :: es))

/-- The outcome of one run of the program: the registrations the function
queued, what it printed, what it returned (`none` is the Go `nil`), what
became of each registration, and what `pulumi.Run` reports (`none`: no error,
every registration succeeded). -/
structure RunResult where
  issued : List Issued
  stdout : List String
  returned : Option Err
  settled : List (Decl × Fate)
  ret : Option RunError
deriving DecidableEq, Repr

/-- Running `main` from an empty world and delivering what it queued to an
engine. -/
def run (engine : Engine) : RunResult :=
  match main ⟨none⟩ ⟨[], []⟩ with
  | (⟨issued, stdout⟩, r) =>
    let returned : Option Err :=
      match r with
      | .ok _ => none
      | .error e => some e
    let settled := settle engine [] (issued.map Issued.decl)
    ⟨issued, stdout, returned, settled, report returned (rejectionsOf settled)⟩

/-- The declarations a run queued, in order. -/
def RunResult.decls (r : RunResult) : List Decl := r.issued.map Issued.decl

/-- The registrations of a run that reached the engine, in program order. -/
def RunResult.arrived (r : RunResult) : List Decl := arrivedOf r.settled

/-- The resources of a run that the engine accepted. -/
def RunResult.acceptedHandles (r : RunResult) : List Resource := acceptedOf r.settled

/-- The engine under which every registration succeeds. -/
def okEngine : Engine := fun _ => none

/-- The declarations of a fully successful run, with their call sites: the
fixed program order. -/
def programIssued : List Issued := (run okEngine).issued

/-- The declarations of a fully successful run, in program order. -/
def program : List Decl := programIssued.map Issued.decl

/-- An engine that rejects the NAT gateway and accepts everything else. -/
def natFails : Engine := fun d =>
  if d.name = "pulumi-eks-go-nat-gw-1" then some "boom" else none

/-- An engine that rejects the VPC and accepts everything else. -/
def vpcFails : Engine := fun d =>
  if d.name = "pulumi-eks-go-vpc" then some "no vpc" else none

/-- An engine that rejects the NAT gateway and the cluster. -/
def natAndClusterFail : Engine := fun d =>
  if d.name = "pulumi-eks-go-nat-gw-1" then some "boom"
  else if d.name = "pulumi-eks-go-cluster" then some "no cluster"
  else none

/-- The answer of the engine to the declaration at position `j` (from 0) of the
program order: `some none` is success, `some (some e)` is failure with `e`,
and `none` means that the program has no such position. -/
def answerAt (engine : Engine) (j : Nat) : Option (Option Err) :=
  program[j]?.map engine

/-! ## Reading a list of declarations -/

/-- The VPC declarations of a list, as handle and arguments. -/
def vpcs (ds : List Decl) : List (Resource × ec2.VpcArgs) :=
  ds.filterMap fun d => match d with
    | .Vpc _ a => some (d.handle, a)
    | _ => none

/-- The subnet declarations of a list, as handle and arguments. -/
def subnets (ds : List Decl) : List (Resource × ec2.SubnetArgs) :=
  ds.filterMap fun d => match d with
    | .Subnet _ a => some (d.handle, a)
    | _ => none

/-- The Elastic IP declarations of a list, as handle and arguments. -/
def eips (ds : List Decl) : List (Resource × ec2.EipArgs) :=
  ds.filterMap fun d => match d with
    | .Eip _ a => some (d.handle, a)
    | _ => none

/-- The NAT gateway declarations of a list, as handle and arguments. -/
def natGateways (ds : List Decl) : List (Resource × ec2.NatGatewayArgs) :=
  ds.filterMap fun d => match d with
    | .NatGateway _ a => some (d.handle, a)
    | _ => none

/-- The internet gateway declarations of a list, as handle and arguments. -/
def internetGateways (ds : List Decl) : List (Resource × ec2.InternetGatewayArgs) :=
  ds.filterMap fun d => match d with
    | .InternetGateway _ a => some (d.handle, a)
    | _ => none

/-- The route table declarations of a list, as handle and arguments. -/
def routeTables (ds : List Decl) : List (Resource × ec2.RouteTableArgs) :=
  ds.filterMap fun d => match d with
    | .RouteTable _ a => some (d.handle, a)
    | _ => none

/-- The route-table association declarations of a list, as handle and arguments. -/
def associations (ds : List Decl) : List (Resource × ec2.RouteTableAssociationArgs) :=
  ds.filterMap fun d => match d with
    | .RouteTableAssociation _ a => some (d.handle, a)
    | _ => none

/-- The IAM role declarations of a list, as handle and arguments. -/
def roles (ds : List Decl) : List (Resource × iam.RoleArgs) :=
  ds.filterMap fun d => match d with
    | .Role _ a => some (d.handle, a)
    | _ => none

/-- The role-policy attachment declarations of a list, as handle and arguments. -/
def attachments (ds : List Decl) : List (Resource × iam.RolePolicyAttachmentArgs) :=
  ds.filterMap fun d => match d with
    | .RolePolicyAttachment _ a => some (d.handle, a)
    | _ => none

/-- The security group declarations of a list, as handle and arguments. -/
def securityGroups (ds : List Decl) : List (Resource × ec2.SecurityGroupArgs) :=
  ds.filterMap fun d => match d with
    | .SecurityGroup _ a => some (d.handle, a)
    | _ => none

/-- The EKS cluster declarations of a list, as handle and arguments. -/
def clusters (ds : List Decl) : List (Resource × eks.ClusterArgs) :=
  ds.filterMap fun d => match d with
    | .Cluster _ a => some (d.handle, a)
    | _ => none

/-- The node group declarations of a list, as handle and arguments. -/
def nodeGroups (ds : List Decl) : List (Resource × eks.NodeGroupArgs) :=
  ds.filterMap fun d => match d with
    | .NodeGroup _ a => some (d.handle, a)
    | _ => none

/-- Whether `p` is an initial segment of `cs`. -/
def startsWith (p : List Char) : List Char → Bool :=
  fun cs => cs.take p.length == p

/-- What follows the first occurrence of `marker` in `cs`, if there is one. -/
def afterMarker (marker : List Char) : List Char → Option (List Char)
  | [] => if marker = [] then some [] else none
  | c :: cs =>
    if startsWith marker (c :: cs) then some ((c :: cs).drop marker.length)
    else afterMarker marker cs

/-- The service principal that an assume-role policy document trusts: the text
between `"Service": "` and the next double quote. -/
def trustedService (policy : Input) : Option String :=
  match policy with
  | .str s =>
    (afterMarker "\"Service\": \"".data s.data).map fun r =>
      String.mk (r.takeWhile fun c => c != '"')
  | .out _ => none

/-- The literal behind an input, if it is one. -/
def Input.lit? : Input → Option String
  | .str s => some s
  | .out _ => none

/-! ## CIDR blocks -/

/-- The value of a decimal digit. -/
def digitVal (c : Char) : Option Nat :=
  if '0' ≤ c ∧ c ≤ '9' then some (c.toNat - '0'.toNat) else none

/-- Reading digits left to right onto an accumulator. -/
def parseDigits : Nat → List Char → Option Nat
  | acc, [] => some acc
  | acc, c :: cs =>
    match digitVal c with
    | some v => parseDigits (acc * 10 + v) cs
    | none => none

/-- A non-empty run of decimal digits, as a number. -/
def parseDec (cs : List Char) : Option Nat :=
  if cs = [] then none else parseDigits 0 cs

/-- Splitting at every occurrence of a separator; `cur` is the piece being read, reversed. -/
def splitAux (sep : Char) : List Char → List Char → List (List Char)
  | cur, [] => [cur.reverse]
  | cur, c :: cs =>
    if c = sep then cur.reverse :: splitAux sep [] cs else splitAux sep (c :: cur) cs

/-- Splitting at every occurrence of a separator. -/
def splitAt (sep : Char) (cs : List Char) : List (List Char) := splitAux sep [] cs

/-- A CIDR block `a.b.c.d/n`: the address as a 32-bit number, and the mask length. -/
structure Cidr where
  addr : Nat
  bits : Nat
deriving DecidableEq, Repr

/-- Reading the text `a.b.c.d/n` with `a, b, c, d ≤ 255` and `n ≤ 32`. -/
def parseCidr (s : String) : Option Cidr :=
  match splitAt '/' s.data with
  | [ip, n] =>
    match (splitAt '.' ip).map parseDec, parseDec n with
    | [some a, some b, some c, some d], some n =>
      if a ≤ 255 ∧ b ≤ 255 ∧ c ≤ 255 ∧ d ≤ 255 ∧ n ≤ 32 then
        some ⟨((a * 256 + b) * 256 + c) * 256 + d, n⟩
      else none
    | _, _ => none
  | _ => none

/-- The CIDR block behind an input, if the input is a literal that reads as one. -/
def cidrOf (i : Input) : Option Cidr := i.lit?.bind parseCidr

/-- Membership of a 32-bit address `x` in a CIDR block: `x` shares the first
`bits` bits of the block's address. -/
def Cidr.Contains (c : Cidr) (x : Nat) : Prop :=
  x < 2 ^ 32 ∧ x / 2 ^ (32 - c.bits) = c.addr / 2 ^ (32 - c.bits)

instance (c : Cidr) (x : Nat) : Decidable (c.Contains x) := by
  unfold Cidr.Contains; infer_instance

/-! ## Names the specification uses -/

/-- The logical names of the three private subnets. -/
def privateSubnetNames : List String :=
  ["pulumi-eks-go-priv-subnet-1", "pulumi-eks-go-priv-subnet-2", "pulumi-eks-go-priv-subnet-3"]

/-- The logical names of the three public subnets. -/
def publicSubnetNames : List String :=
  ["pulumi-eks-go-pub-subnet-1", "pulumi-eks-go-pub-subnet-2", "pulumi-eks-go-pub-subnet-3"]

/-- The three availability zones. -/
def zones : List String := ["us-east-2a", "us-east-2b", "us-east-2c"]

/-- The destination of a default route. -/
def defaultRoute : Input := .str "0.0.0.0/0"

/-- The associations of a list whose `SubnetId` is the ID of the subnet `s`. -/
def associationsOf (ds : List Decl) (s : Resource) :
    List (Resource × ec2.RouteTableAssociationArgs) :=
  (associations ds).filter fun a => a.2.SubnetId = s.ID

/-- The managed policies of the cluster role (the slice `eksPolicies`). -/
def eksPolicies : List String := [
  "arn:aws:iam::aws:policy/AmazonEKSServicePolicy",
  "arn:aws:iam::aws:policy/AmazonEKSClusterPolicy"
]

/-- The managed policies of the node role (the slice `nodeGroupPolicies`). -/
def nodeGroupPolicies : List String := [
  "arn:aws:iam::aws:policy/AmazonEKSWorkerNodePolicy",
  "arn:aws:iam::aws:policy/AmazonEKS_CNI_Policy",
  "arn:aws:iam::aws:policy/AmazonEC2ContainerRegistryReadOnly"
]

/-- The policy ARNs attached to the role `r` in a list of declarations, in
declaration order: one entry per attachment whose `Role` is the `Name` of `r`. -/
def attachedPolicies (ds : List Decl) (r : Resource) : List Input :=
  ((attachments ds).filter fun a => a.2.Role = r.Name).map fun a => a.2.PolicyArn

/-- The logical names that the two loops build with `fmt.Sprintf`: indices
`0..1` under `prefix+"rpa-%d"` and indices `0..2` under `prefix+"ngpa-%d"`. -/
def formattedNames : List String :=
  (List.range 2).map (Sprintf ("pulumi-eks-go" ++ "rpa-%d")) ++
    (List.range 3).map (Sprintf ("pulumi-eks-go" ++ "ngpa-%d"))

/-- The logical names passed as literals (`prefix + "..."`): those of the
declarations that are not role-policy attachments. -/
def literalNames (ds : List Decl) : List String :=
  (ds.filter fun d => d.kind ≠ .RolePolicyAttachment).map Decl.name

/-! ## What the function queues -/

/-- The function body, run from an empty world: it queues the program order,
prints nothing and returns `nil`. -/
theorem main_eval : main ⟨none⟩ ⟨[], []⟩ = (⟨programIssued, []⟩, .ok ()) := by rfl

/-- Every run, whatever the engine answers, queues the program order and
delivers it. -/
theorem run_eq (engine : Engine) :
    run engine =
      ⟨programIssued, [], none, settle engine [] program,
        report none (rejectionsOf (settle engine [] program))⟩ := by
  unfold run
  rw [main_eval]
  rfl

theorem run_issued (engine : Engine) : (run engine).issued = programIssued := by
  rw [run_eq]

theorem run_decls (engine : Engine) : (run engine).decls = program := by
  rw [run_eq]
  rfl

/-- A run that reports no error queued the whole program order. -/
theorem run_ok_decls (engine : Engine) (_hok : (run engine).ret = none) :
    (run engine).decls = program :=
  run_decls engine

theorem program_length : program.length = 29 := by decide

theorem program_nodup : program.Nodup := by decide

theorem program_handles_nodup : (program.map Decl.handle).Nodup := by decide

theorem program_refs_earlier :
    ∀ i d, program[i]? = some d → ∀ r ∈ d.refs, r ∈ (program.take i).map Decl.handle := by
  have hdec : ∀ i < 29, ∀ r ∈ (program[i]?.map Decl.refs).getD [],
      r ∈ (program.take i).map Decl.handle := by decide
  intro i d hd r hr
  have hil : i < program.length := (List.getElem?_eq_some.mp hd).1
  rw [program_length] at hil
  have := hdec i hil r
  rw [hd] at this
  exact this hr

/-! ## Delivery -/

theorem settle_cons_accepted (engine : Engine) (acc : List Resource) (d : Decl)
    (ds : List Decl) (hrefs : ∀ r ∈ d.refs, r ∈ acc) (hd : engine d = none) :
    settle engine acc (d :: ds) =
      (d, Fate.accepted) :: settle engine (acc ++ [d.handle]) ds := by
  simp only [settle, if_pos hrefs, hd]

theorem settle_cons_rejected (engine : Engine) (acc : List Resource) (d : Decl)
    (ds : List Decl) (e : Err) (hrefs : ∀ r ∈ d.refs, r ∈ acc) (hd : engine d = some e) :
    settle engine acc (d :: ds) = (d, Fate.rejected e) :: settle engine acc ds := by
  simp only [settle, if_pos hrefs, hd]

theorem settle_cons_notSent (engine : Engine) (acc : List Resource) (d : Decl)
    (ds : List Decl) (hrefs : ¬ ∀ r ∈ d.refs, r ∈ acc) :
    settle engine acc (d :: ds) = (d, Fate.notSent) :: settle engine acc ds := by
  simp only [settle, if_neg hrefs]

/-- While the engine accepts, and references point backwards, every
registration is sent and accepted. -/
theorem settle_accepted_prefix (engine : Engine) :
    ∀ (ds : List Decl) (acc : List Resource) (k : Nat),
      (∀ j < k, ∀ d, ds[j]? = some d → engine d = none) →
      (∀ j d, ds[j]? = some d →
        ∀ r ∈ d.refs, r ∈ acc ++ (ds.take j).map Decl.handle) →
      settle engine acc ds =
        (ds.take k).map (fun d => (d, Fate.accepted)) ++
          settle engine (acc ++ (ds.take k).map Decl.handle) (ds.drop k) := by
  intro ds
  induction ds with
  | nil => intro acc k _ _; simp [settle]
  | cons d ds ih =>
    intro acc k hacc hrefs
    cases k with
    | zero => simp
    | succ k =>
      have hd : engine d = none := hacc 0 (Nat.succ_pos k) d (by simp)
      have hr : ∀ r ∈ d.refs, r ∈ acc := by
        intro r hr
        simpa using hrefs 0 d (by simp) r hr
      rw [settle_cons_accepted engine acc d ds hr hd,
        ih (acc ++ [d.handle]) k
          (fun j hj x hx => hacc (j + 1) (Nat.succ_lt_succ hj) x (by simpa using hx))
          (fun j x hx r hr => by
            have := hrefs (j + 1) x (by simpa using hx) r hr
            simpa using this)]
      simp

theorem rejectionsOf_append (xs ys : List (Decl × Fate)) :
    rejectionsOf (xs ++ ys) = rejectionsOf xs ++ rejectionsOf ys := by
  simp [rejectionsOf, List.filterMap_append]

theorem arrivedOf_append (xs ys : List (Decl × Fate)) :
    arrivedOf (xs ++ ys) = arrivedOf xs ++ arrivedOf ys := by
  simp [arrivedOf, List.filter_append]

theorem acceptedOf_append (xs ys : List (Decl × Fate)) :
    acceptedOf (xs ++ ys) = acceptedOf xs ++ acceptedOf ys := by
  simp [acceptedOf, List.filter_append]

theorem rejectionsOf_accepted (ds : List Decl) :
    rejectionsOf (ds.map fun d => (d, Fate.accepted)) = [] := by
  induction ds with
  | nil => rfl
  | cons d ds ih => simp only [List.map_cons, rejectionsOf, List.filterMap_cons]; exact ih

theorem arrivedOf_accepted (ds : List Decl) :
    arrivedOf (ds.map fun d => (d, Fate.accepted)) = ds := by
  induction ds with
  | nil => rfl
  | cons d ds ih => simpa [arrivedOf] using ih

/-- When no registration is rejected, and references point backwards, the
engine accepted every one of them. -/
theorem settle_no_rejection (engine : Engine) :
    ∀ (ds : List Decl) (acc : List Resource),
      (∀ j d, ds[j]? = some d →
        ∀ r ∈ d.refs, r ∈ acc ++ (ds.take j).map Decl.handle) →
      rejectionsOf (settle engine acc ds) = [] →
      ∀ d ∈ ds, engine d = none := by
  intro ds
  induction ds with
  | nil => intro acc _ _ d hd; simp at hd
  | cons x ds ih =>
    intro acc hrefs hrej
    have hr : ∀ r ∈ x.refs, r ∈ acc := by
      intro r hr
      simpa using hrefs 0 x (by simp) r hr
    cases hx : engine x with
    | some e =>
      rw [settle_cons_rejected engine acc x ds e hr hx] at hrej
      simp [rejectionsOf] at hrej
    | none =>
      rw [settle_cons_accepted engine acc x ds hr hx] at hrej
      have hrej2 : rejectionsOf (settle engine (acc ++ [x.handle]) ds) = [] := by
        simpa [rejectionsOf] using hrej
      have htail := ih (acc ++ [x.handle])
        (fun j y hy r hr => by
          have := hrefs (j + 1) y (by simpa using hy) r hr
          simpa using this) hrej2
      intro d hd
      rcases List.mem_cons.mp hd with h | h
      · rw [h]; exact hx
      · exact htail d h

theorem settle_fst (engine : Engine) :
    ∀ (ds : List Decl) (acc : List Resource),
      (settle engine acc ds).map Prod.fst = ds := by
  intro ds
  induction ds with
  | nil => intro acc; rfl
  | cons d ds ih =>
    intro acc
    by_cases hr : ∀ r ∈ d.refs, r ∈ acc
    · cases hd : engine d with
      | none => rw [settle_cons_accepted engine acc d ds hr hd]; simp [ih]
      | some e => rw [settle_cons_rejected engine acc d ds e hr hd]; simp [ih]
    · rw [settle_cons_notSent engine acc d ds hr]; simp [ih]

theorem settle_append (engine : Engine) (ys : List Decl) :
    ∀ (xs : List Decl) (acc : List Resource),
      settle engine acc (xs ++ ys) =
        settle engine acc xs ++
          settle engine (acc ++ acceptedOf (settle engine acc xs)) ys := by
  intro xs
  induction xs with
  | nil => intro acc; simp [settle, acceptedOf]
  | cons d xs ih =>
    intro acc
    by_cases hr : ∀ r ∈ d.refs, r ∈ acc
    · cases hd : engine d with
      | none =>
        rw [List.cons_append, settle_cons_accepted engine acc d _ hr hd,
          settle_cons_accepted engine acc d _ hr hd, ih]
        simp [acceptedOf]
      | some e =>
        rw [List.cons_append, settle_cons_rejected engine acc d _ e hr hd,
          settle_cons_rejected engine acc d _ e hr hd, ih]
        simp [acceptedOf]
    · rw [List.cons_append, settle_cons_notSent engine acc d _ hr,
        settle_cons_notSent engine acc d _ hr, ih]
      simp [acceptedOf]

theorem arrivedOf_subset (ss : List (Decl × Fate)) :
    ∀ d ∈ arrivedOf ss, d ∈ ss.map Prod.fst := by
  intro d hd
  simp only [arrivedOf, List.mem_map, List.mem_filter] at hd
  obtain ⟨p, ⟨hp, _⟩, rfl⟩ := hd
  exact List.mem_map.mpr ⟨p, hp, rfl⟩

theorem acceptedOf_subset (ss : List (Decl × Fate)) :
    ∀ r ∈ acceptedOf ss, r ∈ (ss.map Prod.fst).map Decl.handle := by
  intro r hr
  simp only [acceptedOf, List.mem_map, List.mem_filter] at hr
  obtain ⟨p, ⟨hp, _⟩, rfl⟩ := hr
  exact List.mem_map.mpr ⟨p.1, List.mem_map.mpr ⟨p, hp, rfl⟩, rfl⟩

/-- In a list of declarations with distinct handles whose references point
backwards, a registration reaches the engine exactly when every resource it
refers to was accepted. -/
theorem settle_arrived_iff (engine : Engine) (ds : List Decl)
    (hnd : (ds.map Decl.handle).Nodup)
    (hrefs : ∀ i d, ds[i]? = some d → ∀ r ∈ d.refs, r ∈ (ds.take i).map Decl.handle)
    (d : Decl) (hd : d ∈ ds) :
    d ∈ arrivedOf (settle engine [] ds) ↔
      ∀ r ∈ d.refs, r ∈ acceptedOf (settle engine [] ds) := by
  obtain ⟨i, hi⟩ := List.mem_iff_getElem?.mp hd
  have hil : i < ds.length := (List.getElem?_eq_some.mp hi).1
  have hdi : ds[i] = d := (List.getElem?_eq_some.mp hi).2
  have hsplit : ds = ds.take i ++ d :: ds.drop (i + 1) := by
    rw [← hdi, ← List.drop_eq_getElem_cons hil, List.take_append_drop]
  have hnd2 : ((ds.take i).map Decl.handle ++
      (d :: ds.drop (i + 1)).map Decl.handle).Nodup := by
    rw [← List.map_append, ← hsplit]; exact hnd
  have hdisj := (List.nodup_append.mp hnd2).2.2
  have hnd3 : (d.handle :: (ds.drop (i + 1)).map Decl.handle).Nodup := by
    simpa using (List.nodup_append.mp hnd2).2.1
  have hdny : d ∉ ds.drop (i + 1) := by
    intro hmem
    exact (List.nodup_cons.mp hnd3).1 (List.mem_map.mpr ⟨d, hmem, rfl⟩)
  have hdnx : d ∉ ds.take i := by
    intro hmem
    exact hdisj (List.mem_map.mpr ⟨d, hmem, rfl⟩) (by simp)
  have hS : settle engine [] ds =
      settle engine [] (ds.take i) ++
        settle engine (acceptedOf (settle engine [] (ds.take i)))
          (d :: ds.drop (i + 1)) := by
    conv_lhs => rw [hsplit]
    rw [settle_append]
    simp
  -- references of `d` that were accepted at all were accepted before `d`
  have hback : ∀ r ∈ d.refs, r ∈ acceptedOf (settle engine [] ds) →
      r ∈ acceptedOf (settle engine [] (ds.take i)) := by
    intro r hr hacc
    rw [hS, acceptedOf_append] at hacc
    rcases List.mem_append.mp hacc with h | h
    · exact h
    · exfalso
      have h1 := acceptedOf_subset _ r h
      rw [settle_fst] at h1
      exact hdisj (hrefs i d hi r hr) h1
  have hfwd : ∀ r, r ∈ acceptedOf (settle engine [] (ds.take i)) →
      r ∈ acceptedOf (settle engine [] ds) := by
    intro r h
    rw [hS, acceptedOf_append]
    exact List.mem_append_left _ h
  have hnx : d ∉ arrivedOf (settle engine [] (ds.take i)) := by
    intro h
    have := arrivedOf_subset _ d h
    rw [settle_fst] at this
    exact hdnx this
  have hny : ∀ acc, d ∉ arrivedOf (settle engine acc (ds.drop (i + 1))) := by
    intro acc h
    have := arrivedOf_subset _ d h
    rw [settle_fst] at this
    exact hdny this
  constructor
  · intro harr r hr
    apply hfwd
    rw [hS, arrivedOf_append] at harr
    rcases List.mem_append.mp harr with h | h
    · exact absurd h hnx
    · by_contra hcon
      have hns : ¬ ∀ r ∈ d.refs, r ∈ acceptedOf (settle engine [] (ds.take i)) := by
        intro hall; exact hcon (hall r hr)
      rw [settle_cons_notSent engine _ d _ hns] at h
      simp only [arrivedOf, List.filter_cons, ne_eq, not_true_eq_false, decide_False,
        Bool.false_eq_true, if_false] at h
      exact hny _ h
  · intro hall
    have hr : ∀ r ∈ d.refs, r ∈ acceptedOf (settle engine [] (ds.take i)) :=
      fun r hr => hback r hr (hall r hr)
    rw [hS, arrivedOf_append]
    apply List.mem_append_right
    cases he : engine d with
    | none => rw [settle_cons_accepted engine _ d _ hr he]; simp [arrivedOf]
    | some e => rw [settle_cons_rejected engine _ d _ e hr he]; simp [arrivedOf]

theorem settle_fate (engine : Engine) :
    ∀ (ds : List Decl) (acc : List Resource), ∀ p ∈ settle engine acc ds,
      (p.2 = Fate.accepted → engine p.1 = none) ∧
      (∀ e, p.2 = Fate.rejected e → engine p.1 = some e) := by
  intro ds
  induction ds with
  | nil => intro acc p hp; simp [settle] at hp
  | cons d ds ih =>
    intro acc p hp
    by_cases hr : ∀ r ∈ d.refs, r ∈ acc
    · cases hd : engine d with
      | none =>
        rw [settle_cons_accepted engine acc d ds hr hd] at hp
        rcases List.mem_cons.mp hp with h | h
        · subst h; exact ⟨fun _ => hd, fun e he => (by cases he)⟩
        · exact ih _ p h
      | some e =>
        rw [settle_cons_rejected engine acc d ds e hr hd] at hp
        rcases List.mem_cons.mp hp with h | h
        · subst h
          exact ⟨fun he => (by cases he), fun e2 he => (by cases he; exact hd)⟩
        · exact ih _ p h
    · rw [settle_cons_notSent engine acc d ds hr] at hp
      rcases List.mem_cons.mp hp with h | h
      · subst h; exact ⟨fun he => (by cases he), fun e he => (by cases he)⟩
      · exact ih _ p h

/-- The accepted resources are those of the registrations that reached the
engine and that the engine let succeed. -/
theorem settle_accepted_iff (engine : Engine) (ds : List Decl) (acc : List Resource)
    (r : Resource) :
    r ∈ acceptedOf (settle engine acc ds) ↔
      ∃ d ∈ arrivedOf (settle engine acc ds), d.handle = r ∧ engine d = none := by
  constructor
  · intro hr
    simp only [acceptedOf, List.mem_map, List.mem_filter, decide_eq_true_eq] at hr
    obtain ⟨p, ⟨hp, hacc⟩, rfl⟩ := hr
    refine ⟨p.1, ?_, rfl, (settle_fate engine ds acc p hp).1 hacc⟩
    simp only [arrivedOf, List.mem_map, List.mem_filter, decide_eq_true_eq]
    exact ⟨p, ⟨hp, by rw [hacc]; intro h; cases h⟩, rfl⟩
  · rintro ⟨d, hd, rfl, he⟩
    simp only [arrivedOf, List.mem_map, List.mem_filter, decide_eq_true_eq] at hd
    obtain ⟨p, ⟨hp, hsent⟩, rfl⟩ := hd
    simp only [acceptedOf, List.mem_map, List.mem_filter, decide_eq_true_eq]
    refine ⟨p, ⟨hp, ?_⟩, rfl⟩
    cases hf : p.2 with
    | accepted => rfl
    | rejected e =>
      have := (settle_fate engine ds acc p hp).2 e hf
      rw [he] at this
      cases this
    | notSent => exact absurd hf hsent

theorem arrivedOf_sublist (engine : Engine) (ds : List Decl) (acc : List Resource) :
    (arrivedOf (settle engine acc ds)).Sublist ds := by
  have h : (arrivedOf (settle engine acc ds)).Sublist
      ((settle engine acc ds).map Prod.fst) :=
    (List.filter_sublist _).map Prod.fst
  rwa [settle_fst] at h

theorem answerAt_none_iff (engine : Engine) :
    (∀ j < 29, answerAt engine j = some none) ↔ ∀ d ∈ program, engine d = none := by
  constructor
  · intro h d hd
    obtain ⟨j, hj⟩ := List.mem_iff_getElem?.mp hd
    have hjl : j < program.length := (List.getElem?_eq_some.mp hj).1
    rw [program_length] at hjl
    have := h j hjl
    simpa [answerAt, hj] using this
  · intro h j hj
    have hjl : j < program.length := by rw [program_length]; exact hj
    simp only [answerAt, List.getElem?_eq_getElem hjl, Option.map_some']
    rw [h _ (List.getElem_mem hjl)]

/-! ## C1: engine rejections and the function's `return err` -/

/-- C1, as stated, fails.  Under the engine that rejects only the NAT gateway
(position 8, the 9th declaration) the function still makes all 29 constructor
calls and returns `nil`; 25 registrations reach the engine, among them the
internet gateway, which is declared after the NAT gateway; so neither the
calls made nor the registrations received are the first nine declarations. -/
theorem engine_rejection_not_fail_fast :
    ((∀ j < 8, answerAt natFails j = some none) ∧
      answerAt natFails 8 = some (some "boom")) ∧
    (run natFails).decls.length = 29 ∧
    (run natFails).returned = none ∧
    (run natFails).arrived.length = 25 ∧
    (∃ d ∈ (run natFails).arrived, d.name = "pulumi-eks-go-gw") ∧
    (program.take (8 + 1)).length = 9 ∧
    (∀ d ∈ program.take (8 + 1), d.name ≠ "pulumi-eks-go-gw") ∧
    ¬ ∀ (engine : Engine) (k : Nat) (e : Err),
        (∀ j < k, answerAt engine j = some none) →
        answerAt engine k = some (some e) →
        ((run engine).decls = program.take (k + 1) ∨
          (run engine).arrived = program.take (k + 1)) := by
  refine ⟨by decide, by decide, by decide, by decide, by decide, by decide, by decide, ?_⟩
  intro h
  have h1 := h natFails 8 "boom" (by decide) (by decide)
  revert h1
  decide

/-- C1, amended.  The program order has 29 declarations.  For every engine:
the function makes all 29 constructor calls, in program order, and returns
`nil`; the registrations that reach the engine are a sublist of the program
order, and a registration reaches it exactly when every resource it refers to
was accepted; the accepted resources are those of the registrations that
reached the engine and that it let succeed.  If the declaration at position
`k` (from 0) is the first one the engine rejects, with error `e`, then the
first `k + 1` declarations all reach the engine (they head the arrivals,
listed in program order), and the run reports a failure in which `e` is the
first rejection in program order.  The run reports no error exactly when the
engine accepts each of the 29 declarations. -/
theorem queue_all_report_rejections (engine : Engine) :
    program.length = 29 ∧
    (run engine).decls = program ∧
    (run engine).returned = none ∧
    (run engine).arrived.Sublist program ∧
    (∀ d ∈ program,
      d ∈ (run engine).arrived ↔ ∀ r ∈ d.refs, r ∈ (run engine).acceptedHandles) ∧
    (∀ r, r ∈ (run engine).acceptedHandles ↔
      ∃ d ∈ (run engine).arrived, d.handle = r ∧ engine d = none) ∧
    (∀ k e, (∀ j < k, answerAt engine j = some none) →
      answerAt engine k = some (some e) →
      (run engine).arrived.take (k + 1) = program.take (k + 1) ∧
      ∃ errs, (run engine).ret = some (.waitingForRPCs (e :: errs))) ∧
    ((run engine).ret = none ↔ ∀ j < 29, answerAt engine j = some none) := by
  have hrefs0 : ∀ j d, program[j]? = some d →
      ∀ r ∈ d.refs, r ∈ ([] : List Resource) ++ (program.take j).map Decl.handle := by
    intro j d hd r hr
    simpa using program_refs_earlier j d hd r hr
  refine ⟨program_length, run_decls engine, by rw [run_eq], ?_, ?_, ?_, ?_, ?_⟩
  · rw [run_eq]
    exact arrivedOf_sublist engine program []
  · intro d hd
    rw [run_eq]
    exact settle_arrived_iff engine program program_handles_nodup
      program_refs_earlier d hd
  · intro r
    rw [run_eq]
    exact settle_accepted_iff engine program [] r
  · intro k e hlt hk
    simp only [answerAt] at hk
    obtain ⟨dk, hdk, hek⟩ := Option.map_eq_some'.mp hk
    have hkl : k < program.length := (List.getElem?_eq_some.mp hdk).1
    have hacc : ∀ j < k, ∀ d, program[j]? = some d → engine d = none := by
      intro j hj d hd
      have := hlt j hj
      simpa [answerAt, hd] using this
    have hpre := settle_accepted_prefix engine program [] k hacc hrefs0
    have hdrop : program.drop k = dk :: program.drop (k + 1) := by
      rw [List.drop_eq_getElem_cons hkl, (List.getElem?_eq_some.mp hdk).2]
    have hrk : ∀ r ∈ dk.refs, r ∈ ([] : List Resource) ++ (program.take k).map Decl.handle :=
      hrefs0 k dk hdk
    rw [hdrop, settle_cons_rejected engine _ dk _ e hrk hek] at hpre
    have htake : program.take (k + 1) = program.take k ++ [dk] := by
      rw [List.take_succ, hdk]; rfl
    have hlen : (program.take k).length = k := by
      rw [List.length_take]; omega
    rw [run_eq]
    simp only [RunResult.arrived]
    rw [hpre, arrivedOf_append, rejectionsOf_append, arrivedOf_accepted,
      rejectionsOf_accepted, htake]
    constructor
    · have h1 : arrivedOf ((dk, Fate.rejected e) ::
          settle engine ([] ++ (program.take k).map Decl.handle) (program.drop (k + 1))) =
          dk :: arrivedOf (settle engine ([] ++ (program.take k).map Decl.handle)
            (program.drop (k + 1))) := by
        simp [arrivedOf]
      rw [h1, List.take_append_eq_append_take, hlen]
      simp
    · refine ⟨rejectionsOf (settle engine ([] ++ (program.take k).map Decl.handle)
        (program.drop (k + 1))), ?_⟩
      simp [rejectionsOf, report]
  · rw [answerAt_none_iff, run_eq]
    simp only
    constructor
    · intro hret
      apply settle_no_rejection engine program [] hrefs0
      cases hrej : rejectionsOf (settle engine [] program) with
      | nil => rfl
      | cons e es => rw [hrej] at hret; simp [report] at hret
    · intro hall
      have hpre := settle_accepted_prefix engine program [] program.length
        (fun j _ d hd => hall d (List.mem_iff_getElem?.mpr ⟨j, hd⟩)) hrefs0
      rw [hpre, rejectionsOf_append, rejectionsOf_accepted]
      simp [settle, rejectionsOf, report]

/-- C1, amended, at three engines: rejecting the NAT gateway (the first nine
declarations arrive first, 25 arrive in all, the report carries `boom`),
rejecting the VPC (9 arrive) and rejecting the NAT gateway and the cluster
(23 arrive). -/
theorem queue_all_report_rejections_witness :
    ((∀ j < 8, answerAt natFails j = some none) ∧
      answerAt natFails 8 = some (some "boom")) ∧
    ((run natFails).arrived.take (8 + 1) = program.take (8 + 1) ∧
      ∃ errs, (run natFails).ret = some (.waitingForRPCs ("boom" :: errs))) ∧
    (run natFails).arrived.length = 25 ∧
    (run vpcFails).arrived.length = 9 ∧
    (run natAndClusterFail).arrived.length = 23 ∧
    (run vpcFails).decls.length = 29 ∧
    (run natAndClusterFail).decls.length = 29 :=
  ⟨by decide,
   (queue_all_report_rejections natFails).2.2.2.2.2.2.1 8 "boom" (by decide) (by decide),
   by decide, by decide, by decide, by decide, by decide⟩

/-! ## The declared topology -/

/-- C2: network topology.  In every run in which all registrations succeed
there is exactly one VPC; there are exactly six subnets, the three private ones
(`pulumi-eks-go-priv-subnet-1..3`) and the three public ones
(`pulumi-eks-go-pub-subnet-1..3`), each with the ID of that VPC as `VpcId`;
there is exactly one Elastic IP, one NAT gateway and one internet gateway; the
subnets lie in the three zones `us-east-2a`, `us-east-2b`, `us-east-2c`, and
each of these zones holds exactly one private and exactly one public subnet. -/
theorem network_topology (engine : Engine) (hok : (run engine).ret = none) :
    (vpcs (run engine).decls).length = 1 ∧
    (subnets (run engine).decls).length = 6 ∧
    (subnets (run engine).decls).map (fun s => s.1.name) =
      privateSubnetNames ++ publicSubnetNames ∧
    (∀ v ∈ vpcs (run engine).decls, ∀ s ∈ subnets (run engine).decls,
      s.2.VpcId = v.1.ID) ∧
    (eips (run engine).decls).length = 1 ∧
    (natGateways (run engine).decls).length = 1 ∧
    (internetGateways (run engine).decls).length = 1 ∧
    zones.length = 3 ∧ zones.Nodup ∧
    (∀ s ∈ subnets (run engine).decls, ∃ z ∈ zones, s.2.AvailabilityZone = .str z) ∧
    (∀ z ∈ zones,
      ((subnets (run engine).decls).filter fun s =>
        s.1.name ∈ privateSubnetNames ∧ s.2.AvailabilityZone = .str z).length = 1 ∧
      ((subnets (run engine).decls).filter fun s =>
        s.1.name ∈ publicSubnetNames ∧ s.2.AvailabilityZone = .str z).length = 1) := by
  rw [run_ok_decls engine hok]
  decide

/-- C2 at the engine that accepts every registration. -/
theorem network_topology_witness :
    (run okEngine).ret = none ∧ (subnets (run okEngine).decls).length = 6 :=
  ⟨by decide, (network_topology okEngine (by decide)).2.1⟩

/-- C3: routing.  In every run in which all registrations succeed there are
exactly two route tables, `pulumi-eks-go-rtb-private-1` and
`pulumi-eks-go-rtb-public-1`, and exactly six associations.  The private table
has exactly one route, for `0.0.0.0/0`, whose `GatewayId` is the ID of the NAT
gateway; the public table has exactly one route, for `0.0.0.0/0`, whose
`GatewayId` is the ID of the internet gateway.  Each of the six subnets is the
`SubnetId` of exactly one association, and every association's `SubnetId` is a
declared subnet; the association of a private subnet names the private table
and the association of a public subnet names the public table. -/
theorem routing_topology (engine : Engine) (hok : (run engine).ret = none) :
    (routeTables (run engine).decls).map (fun t => t.1.name) =
      ["pulumi-eks-go-rtb-private-1", "pulumi-eks-go-rtb-public-1"] ∧
    (associations (run engine).decls).length = 6 ∧
    (∀ t ∈ routeTables (run engine).decls, t.1.name = "pulumi-eks-go-rtb-private-1" →
      ∀ g ∈ natGateways (run engine).decls, t.2.Routes = [⟨defaultRoute, g.1.ID⟩]) ∧
    (∀ t ∈ routeTables (run engine).decls, t.1.name = "pulumi-eks-go-rtb-public-1" →
      ∀ g ∈ internetGateways (run engine).decls, t.2.Routes = [⟨defaultRoute, g.1.ID⟩]) ∧
    (natGateways (run engine).decls).length = 1 ∧
    (internetGateways (run engine).decls).length = 1 ∧
    (subnets (run engine).decls).length = 6 ∧
    (∀ s ∈ subnets (run engine).decls,
      (associationsOf (run engine).decls s.1).length = 1) ∧
    (∀ a ∈ associations (run engine).decls,
      ∃ s ∈ subnets (run engine).decls, a.2.SubnetId = s.1.ID) ∧
    (∀ s ∈ subnets (run engine).decls, s.1.name ∈ privateSubnetNames →
      ∀ a ∈ associationsOf (run engine).decls s.1,
        ∃ t ∈ routeTables (run engine).decls,
          t.1.name = "pulumi-eks-go-rtb-private-1" ∧ a.2.RouteTableId = t.1.ID) ∧
    (∀ s ∈ subnets (run engine).decls, s.1.name ∈ publicSubnetNames →
      ∀ a ∈ associationsOf (run engine).decls s.1,
        ∃ t ∈ routeTables (run engine).decls,
          t.1.name = "pulumi-eks-go-rtb-public-1" ∧ a.2.RouteTableId = t.1.ID) ∧
    (∀ s ∈ subnets (run engine).decls,
      s.1.name ∈ privateSubnetNames ∨ s.1.name ∈ publicSubnetNames) := by
  rw [run_ok_decls engine hok]
  decide

/-- C3 at the engine that accepts every registration. -/
theorem routing_topology_witness :
    (run okEngine).ret = none ∧ (associations (run okEngine).decls).length = 6 :=
  ⟨by decide, (routing_topology okEngine (by decide)).2.1⟩

/-- C4: identity.  In every run in which all registrations succeed there are
exactly two IAM roles, the cluster role (trusting `eks.amazonaws.com`) and the
node role (trusting `ec2.amazonaws.com`), and five role-policy attachments,
each carrying the `Name` of one of the two roles.  The attachments of the
cluster role carry, in order, exactly the two ARNs of `eksPolicies`; those of
the node role carry, in order, exactly the three ARNs of `nodeGroupPolicies`;
the five ARNs are pairwise distinct, so none is attached twice, none is
skipped and none goes to the other role. -/
theorem iam_roles_and_policies (engine : Engine) (hok : (run engine).ret = none) :
    (roles (run engine).decls).map (fun r => trustedService r.2.AssumeRolePolicy) =
      [some "eks.amazonaws.com", some "ec2.amazonaws.com"] ∧
    (attachments (run engine).decls).length = 5 ∧
    (∀ a ∈ attachments (run engine).decls,
      (∃ r ∈ roles (run engine).decls, a.2.Role = r.1.Name) ∧
      ((roles (run engine).decls).filter fun r => a.2.Role = r.1.Name).length = 1) ∧
    (∀ r ∈ roles (run engine).decls,
      trustedService r.2.AssumeRolePolicy = some "eks.amazonaws.com" →
      attachedPolicies (run engine).decls r.1 = eksPolicies.map Input.str) ∧
    (∀ r ∈ roles (run engine).decls,
      trustedService r.2.AssumeRolePolicy = some "ec2.amazonaws.com" →
      attachedPolicies (run engine).decls r.1 = nodeGroupPolicies.map Input.str) ∧
    eksPolicies.length = 2 ∧ nodeGroupPolicies.length = 3 ∧
    (eksPolicies ++ nodeGroupPolicies).Nodup := by
  rw [run_ok_decls engine hok]
  decide

/-- C4 at the engine that accepts every registration. -/
theorem iam_roles_and_policies_witness :
    (run okEngine).ret = none ∧ (attachments (run okEngine).decls).length = 5 :=
  ⟨by decide, (iam_roles_and_policies okEngine (by decide)).2.1⟩

/-- C5: compute.  In every run in which all registrations succeed there is
exactly one security group, exactly one EKS cluster and exactly two node
groups, and every node group has `DesiredSize = MinSize = MaxSize = 1`, hence
`MinSize ≤ DesiredSize ≤ MaxSize`. -/
theorem compute_resources (engine : Engine) (hok : (run engine).ret = none) :
    (securityGroups (run engine).decls).length = 1 ∧
    (clusters (run engine).decls).length = 1 ∧
    (nodeGroups (run engine).decls).length = 2 ∧
    (∀ g ∈ nodeGroups (run engine).decls,
      g.2.ScalingConfig.DesiredSize = 1 ∧ g.2.ScalingConfig.MinSize = 1 ∧
      g.2.ScalingConfig.MaxSize = 1 ∧
      g.2.ScalingConfig.MinSize ≤ g.2.ScalingConfig.DesiredSize ∧
      g.2.ScalingConfig.DesiredSize ≤ g.2.ScalingConfig.MaxSize) := by
  rw [run_ok_decls engine hok]
  decide

/-- C5 at the engine that accepts every registration. -/
theorem compute_resources_witness :
    (run okEngine).ret = none ∧ (nodeGroups (run okEngine).decls).length = 2 :=
  ⟨by decide, (compute_resources okEngine (by decide)).2.2.1⟩

/-! ## Dependencies point backwards -/

theorem dependsOn_earlier (ds : List Decl) (hnd : (ds.map Decl.handle).Nodup)
    (hearlier : ∀ i d, ds[i]? = some d → ∀ r ∈ d.refs, r ∈ (ds.take i).map Decl.handle)
    {a b : Resource} (h : DependsOn ds a b) :
    ∀ i, (ds.map Decl.handle)[i]? = some a →
      ∃ j : Nat, j < i ∧ (ds.map Decl.handle)[j]? = some b := by
  obtain ⟨d, hd, hda, hb⟩ := h
  obtain ⟨n, hn⟩ := List.mem_iff_getElem?.mp hd
  intro i hi
  have hna : (ds.map Decl.handle)[n]? = some a := by
    rw [List.getElem?_map, hn]
    simp [hda]
  have hil : i < (ds.map Decl.handle).length := (List.getElem?_eq_some.mp hi).1
  have hin : i = n := List.getElem?_inj hil hnd (hi.trans hna.symm)
  subst hin
  have hmem := hearlier i d hn b hb
  rw [List.map_take] at hmem
  obtain ⟨j, hj⟩ := List.mem_iff_getElem?.mp hmem
  rw [List.getElem?_take] at hj
  by_cases hji : j < i
  · rw [if_pos hji] at hj
    exact ⟨j, hji, hj⟩
  · rw [if_neg hji] at hj
    cases hj

theorem transGen_dependsOn_earlier (ds : List Decl) (hnd : (ds.map Decl.handle).Nodup)
    (hearlier : ∀ i d, ds[i]? = some d → ∀ r ∈ d.refs, r ∈ (ds.take i).map Decl.handle)
    {a b : Resource} (h : Relation.TransGen (DependsOn ds) a b) :
    ∀ i, (ds.map Decl.handle)[i]? = some a →
      ∃ j : Nat, j < i ∧ (ds.map Decl.handle)[j]? = some b := by
  induction h with
  | single hab => exact dependsOn_earlier ds hnd hearlier hab
  | tail _ hbc ih =>
    intro i hi
    obtain ⟨j, hji, hj⟩ := ih i hi
    obtain ⟨k, hkj, hk⟩ := dependsOn_earlier ds hnd hearlier hbc j hj
    exact ⟨k, Nat.lt_trans hkj hji, hk⟩

theorem transGen_dependsOn_mem (ds : List Decl) {a b : Resource}
    (h : Relation.TransGen (DependsOn ds) a b) : a ∈ ds.map Decl.handle := by
  induction h with
  | single hab =>
    obtain ⟨d, hd, hda, _⟩ := hab
    exact List.mem_map.mpr ⟨d, hd, hda⟩
  | tail _ _ ih => exact ih

/-- When handles are pairwise distinct and every reference points to an
earlier declaration, the dependency graph has no cycle. -/
theorem dependsOn_acyclic (ds : List Decl) (hnd : (ds.map Decl.handle).Nodup)
    (hearlier : ∀ i d, ds[i]? = some d → ∀ r ∈ d.refs, r ∈ (ds.take i).map Decl.handle)
    (r : Resource) : ¬ Relation.TransGen (DependsOn ds) r r := by
  intro h
  obtain ⟨i, hi⟩ := List.mem_iff_getElem?.mp (transGen_dependsOn_mem ds h)
  obtain ⟨j, hji, hj⟩ := transGen_dependsOn_earlier ds hnd hearlier h i hi
  have hjl : j < (ds.map Decl.handle).length := (List.getElem?_eq_some.mp hj).1
  have := List.getElem?_inj hjl hnd (hj.trans hi.symm)
  omega

/-- C6: wiring.  In the declarations of a fully successful run: every subnet's
`VpcId` is the ID of the one declared VPC; every association's `SubnetId` is
the ID of a declared subnet; the cluster's `RoleArn` is the ARN of the role
that trusts `eks.amazonaws.com` and of no other role; every node group's
`ClusterName` is the `Name` of the one declared cluster.  Every output that a
declaration takes as input belongs to a resource declared strictly earlier in
program order, and no resource depends on itself through any chain of such
references. -/
theorem wiring (engine : Engine) (hok : (run engine).ret = none) :
    (vpcs (run engine).decls).length = 1 ∧
    (∀ s ∈ subnets (run engine).decls, ∀ v ∈ vpcs (run engine).decls,
      s.2.VpcId = v.1.ID) ∧
    (∀ a ∈ associations (run engine).decls,
      ∃ s ∈ subnets (run engine).decls, a.2.SubnetId = s.1.ID) ∧
    (clusters (run engine).decls).length = 1 ∧
    (∀ c ∈ clusters (run engine).decls,
      (∃ r ∈ roles (run engine).decls,
        trustedService r.2.AssumeRolePolicy = some "eks.amazonaws.com" ∧
        c.2.RoleArn = r.1.Arn) ∧
      (∀ r ∈ roles (run engine).decls,
        trustedService r.2.AssumeRolePolicy ≠ some "eks.amazonaws.com" →
        c.2.RoleArn ≠ r.1.Arn)) ∧
    (∀ g ∈ nodeGroups (run engine).decls, ∀ c ∈ clusters (run engine).decls,
      g.2.ClusterName = c.1.Name) ∧
    (∀ i d, (run engine).decls[i]? = some d →
      ∀ r ∈ d.refs, r ∈ ((run engine).decls.take i).map Decl.handle) ∧
    (∀ r, ¬ Relation.TransGen (DependsOn (run engine).decls) r r) := by
  rw [run_ok_decls engine hok]
  refine ⟨by decide, by decide, by decide, by decide, by decide, by decide,
    program_refs_earlier, ?_⟩
  exact dependsOn_acyclic program program_handles_nodup program_refs_earlier

/-- C6 at the engine that accepts every registration. -/
theorem wiring_witness :
    (run okEngine).ret = none ∧
    ∀ r, ¬ Relation.TransGen (DependsOn (run okEngine).decls) r r :=
  ⟨by decide, (wiring okEngine (by decide)).2.2.2.2.2.2.2⟩

/-- C7: the NAT gateway resides in a public subnet.  In the declarations of a
fully successful run there is one NAT gateway and one Elastic IP, and for the
NAT gateway: its `SubnetId` is the ID of a declared subnet that an association
ties to a route table whose `0.0.0.0/0` route targets the internet gateway;
no association that names a route table whose `0.0.0.0/0` route targets the
NAT gateway carries that `SubnetId`; the route table that the associations of
the private subnets name has the single route `0.0.0.0/0` to this NAT gateway;
and its `AllocationId` is the ID of the declared Elastic IP. -/
theorem nat_gateway_in_public_subnet (engine : Engine) (hok : (run engine).ret = none) :
    (natGateways (run engine).decls).length = 1 ∧
    (eips (run engine).decls).length = 1 ∧
    (internetGateways (run engine).decls).length = 1 ∧
    ∀ g ∈ natGateways (run engine).decls,
      (∃ s ∈ subnets (run engine).decls, g.2.SubnetId = s.1.ID ∧
        ∃ a ∈ associations (run engine).decls, a.2.SubnetId = s.1.ID ∧
          ∃ t ∈ routeTables (run engine).decls, a.2.RouteTableId = t.1.ID ∧
            ∃ i ∈ internetGateways (run engine).decls,
              (⟨defaultRoute, i.1.ID⟩ : ec2.RouteTableRouteArgs) ∈ t.2.Routes) ∧
      (∀ t ∈ routeTables (run engine).decls,
        (⟨defaultRoute, g.1.ID⟩ : ec2.RouteTableRouteArgs) ∈ t.2.Routes →
        ∀ a ∈ associations (run engine).decls,
          a.2.RouteTableId = t.1.ID → a.2.SubnetId ≠ g.2.SubnetId) ∧
      (∃ t ∈ routeTables (run engine).decls,
        t.2.Routes = [⟨defaultRoute, g.1.ID⟩] ∧
        ∀ s ∈ subnets (run engine).decls, s.1.name ∈ privateSubnetNames →
          (associationsOf (run engine).decls s.1).length = 1 ∧
          ∀ a ∈ associationsOf (run engine).decls s.1, a.2.RouteTableId = t.1.ID) ∧
      (∀ e ∈ eips (run engine).decls, g.2.AllocationId = e.1.ID) := by
  rw [run_ok_decls engine hok]
  have h1 : ∀ g ∈ natGateways program,
      ∃ s ∈ subnets program, g.2.SubnetId = s.1.ID ∧
        ∃ a ∈ associations program, a.2.SubnetId = s.1.ID ∧
          ∃ t ∈ routeTables program, a.2.RouteTableId = t.1.ID ∧
            ∃ i ∈ internetGateways program,
              (⟨defaultRoute, i.1.ID⟩ : ec2.RouteTableRouteArgs) ∈ t.2.Routes := by
    decide
  have h2 : ∀ g ∈ natGateways program, ∀ t ∈ routeTables program,
      (⟨defaultRoute, g.1.ID⟩ : ec2.RouteTableRouteArgs) ∈ t.2.Routes →
      ∀ a ∈ associations program,
        a.2.RouteTableId = t.1.ID → a.2.SubnetId ≠ g.2.SubnetId := by
    decide
  have h3 : ∀ g ∈ natGateways program, ∃ t ∈ routeTables program,
      t.2.Routes = [⟨defaultRoute, g.1.ID⟩] ∧
      ∀ s ∈ subnets program, s.1.name ∈ privateSubnetNames →
        (associationsOf program s.1).length = 1 ∧
        ∀ a ∈ associationsOf program s.1, a.2.RouteTableId = t.1.ID := by
    decide
  have h4 : ∀ g ∈ natGateways program, ∀ e ∈ eips program,
      g.2.AllocationId = e.1.ID := by
    decide
  exact ⟨by decide, by decide, by decide,
    fun g hg => ⟨h1 g hg, h2 g hg, h3 g hg, h4 g hg⟩⟩

/-- C7 at the engine that accepts every registration. -/
theorem nat_gateway_in_public_subnet_witness :
    (run okEngine).ret = none ∧ (natGateways (run okEngine).decls).length = 1 :=
  ⟨by decide, (nat_gateway_in_public_subnet okEngine (by decide)).1⟩

/-- C9: logical names.  A fully successful run passes 29 logical names to the
engine and they are pairwise distinct.  Five of them are built by
`fmt.Sprintf` (`pulumi-eks-gorpa-0..1`, `pulumi-eks-gongpa-0..2`), they are the
names of the five attachments, they differ from one another, and none of them
is one of the 24 literal names. -/
theorem names_distinct (engine : Engine) (hok : (run engine).ret = none) :
    ((run engine).decls.map Decl.name).length = 29 ∧
    ((run engine).decls.map Decl.name).Nodup ∧
    (attachments (run engine).decls).map (fun a => a.1.name) = formattedNames ∧
    formattedNames =
      ["pulumi-eks-gorpa-0", "pulumi-eks-gorpa-1",
       "pulumi-eks-gongpa-0", "pulumi-eks-gongpa-1", "pulumi-eks-gongpa-2"] ∧
    formattedNames.Nodup ∧
    (literalNames (run engine).decls).length = 24 ∧
    (∀ n ∈ formattedNames, n ∉ literalNames (run engine).decls) := by
  rw [run_ok_decls engine hok]
  decide

/-- C9 at the engine that accepts every registration. -/
theorem names_distinct_witness :
    (run okEngine).ret = none ∧ ((run okEngine).decls.map Decl.name).Nodup :=
  ⟨by decide, (names_distinct okEngine (by decide)).2.1⟩

/-- C10: address ranges.  In a fully successful run the VPC's CIDR block is
`10.0.0.0/16` and the six subnet blocks are `10.0.1.0/24` to `10.0.6.0/24`;
all seven read as CIDR blocks; no 32-bit address lies in two different subnet
blocks, and every address of a subnet block lies in the VPC's block. -/
theorem subnet_cidrs_disjoint_in_vpc (engine : Engine) (hok : (run engine).ret = none) :
    (vpcs (run engine).decls).map (fun v => v.2.CidrBlock) = [.str "10.0.0.0/16"] ∧
    (subnets (run engine).decls).map (fun s => s.2.CidrBlock) =
      [.str "10.0.1.0/24", .str "10.0.2.0/24", .str "10.0.3.0/24",
       .str "10.0.4.0/24", .str "10.0.5.0/24", .str "10.0.6.0/24"] ∧
    ∃ (v : Cidr) (cs : List Cidr),
      (vpcs (run engine).decls).map (fun v => cidrOf v.2.CidrBlock) = [some v] ∧
      (subnets (run engine).decls).map (fun s => cidrOf s.2.CidrBlock) = cs.map some ∧
      cs.length = 6 ∧
      cs.Pairwise (fun a b => ∀ x, ¬ (a.Contains x ∧ b.Contains x)) ∧
      (∀ c ∈ cs, ∀ x, c.Contains x → v.Contains x) ∧
      (∀ c ∈ cs, ∃ x, c.Contains x) := by
  rw [run_ok_decls engine hok]
  refine ⟨by decide, by decide, ⟨167772160, 16⟩,
    [⟨167772416, 24⟩, ⟨167772672, 24⟩, ⟨167772928, 24⟩,
     ⟨167773184, 24⟩, ⟨167773440, 24⟩, ⟨167773696, 24⟩],
    by decide, by decide, by decide, ?_, ?_, ?_⟩
  · simp only [List.pairwise_cons, List.mem_cons, List.mem_singleton, Cidr.Contains,
      forall_eq_or_imp, forall_eq, List.not_mem_nil, false_implies, implies_true,
      List.Pairwise.nil, and_true]
    norm_num
    refine ⟨⟨?_, ?_, ?_, ?_, ?_⟩, ⟨?_, ?_, ?_, ?_⟩, ⟨?_, ?_, ?_⟩, ⟨?_, ?_⟩, ?_⟩ <;>
      intro x <;> omega
  · simp only [List.mem_cons, List.mem_singleton, Cidr.Contains, forall_eq_or_imp,
      forall_eq, List.not_mem_nil, false_implies, implies_true, and_true]
    norm_num
    refine ⟨?_, ?_, ?_, ?_, ?_, ?_⟩ <;> intro x <;> omega
  · intro c hc
    exact ⟨c.addr, by revert c; decide⟩

/-- C10 at the engine that accepts every registration. -/
theorem subnet_cidrs_disjoint_in_vpc_witness :
    (run okEngine).ret = none ∧
    (vpcs (run okEngine).decls).map (fun v => v.2.CidrBlock) = [.str "10.0.0.0/16"] :=
  ⟨by decide, (subnet_cidrs_disjoint_in_vpc okEngine (by decide)).1⟩

/-! ## Loops and repetition -/

/-- C8, as stated, fails: it is not the case that in every run every
declaration is issued by a straight-line call and none is attempted twice.
Under the engine that accepts everything, the attachment
`pulumi-eks-gorpa-0` is issued from the body of a range loop, at iteration 0. -/
theorem not_all_straight_line :
    (∃ x ∈ (run okEngine).issued,
      x.decl.name = "pulumi-eks-gorpa-0" ∧ x.loopIndex = some 0) ∧
    ¬ ∀ engine : Engine,
      (∀ x ∈ (run engine).issued, x.loopIndex = none) ∧ (run engine).decls.Nodup := by
  refine ⟨by decide, ?_⟩
  intro h
  have h1 := (h okEngine).1
  revert h1
  decide

/-- C8, amended: there are no retries, and the only loops are the two range
loops over the policy slices.  In every run, whatever the engine answers:
every issued declaration other than a role-policy attachment comes from its
own straight-line call; every issued role-policy attachment comes from the
body of a range loop, at an iteration `i < 3`, and carries the `i`-th ARN of
`eksPolicies` or of `nodeGroupPolicies`; and no declaration, and no logical
name, is issued more than once. -/
theorem loops_only_for_attachments (engine : Engine) :
    (∀ x ∈ (run engine).issued,
      x.decl.kind ≠ .RolePolicyAttachment → x.loopIndex = none) ∧
    (∀ x ∈ (run engine).issued, ∀ a ∈ attachments [x.decl],
      ∃ i < 3, x.loopIndex = some i ∧
        (eksPolicies[i]?.map Input.str = some a.2.PolicyArn ∨
         nodeGroupPolicies[i]?.map Input.str = some a.2.PolicyArn)) ∧
    (run engine).decls.Nodup ∧
    ((run engine).decls.map Decl.name).Nodup := by
  have hA : ∀ x ∈ programIssued,
      x.decl.kind ≠ .RolePolicyAttachment → x.loopIndex = none := by decide
  have hB : ∀ x ∈ programIssued, ∀ a ∈ attachments [x.decl],
      ∃ i < 3, x.loopIndex = some i ∧
        (eksPolicies[i]?.map Input.str = some a.2.PolicyArn ∨
         nodeGroupPolicies[i]?.map Input.str = some a.2.PolicyArn) := by decide
  have hN : (program.map Decl.name).Nodup := by decide
  rw [run_issued engine, run_decls engine]
  exact ⟨hA, hB, program_nodup, hN⟩

/-- C8, amended, at the engine that accepts every registration: the run
issues 29 declarations; the five issued from a loop body are the five
role-policy attachments, at iterations 0, 1 and 0, 1, 2, each carrying the ARN
at that index of its policy slice; nothing is issued twice. -/
theorem loops_only_for_attachments_witness :
    (run okEngine).issued.length = 29 ∧
    ((run okEngine).issued.filter fun x => x.loopIndex ≠ none).map
        (fun x => (x.decl.kind, x.decl.name, x.loopIndex)) =
      [(.RolePolicyAttachment, "pulumi-eks-gorpa-0", some 0),
       (.RolePolicyAttachment, "pulumi-eks-gorpa-1", some 1),
       (.RolePolicyAttachment, "pulumi-eks-gongpa-0", some 0),
       (.RolePolicyAttachment, "pulumi-eks-gongpa-1", some 1),
       (.RolePolicyAttachment, "pulumi-eks-gongpa-2", some 2)] ∧
    (attachments (run okEngine).decls).length = 5 ∧
    (∀ x ∈ (run okEngine).issued, ∀ a ∈ attachments [x.decl],
      ∃ i < 3, x.loopIndex = some i ∧
        (eksPolicies[i]?.map Input.str = some a.2.PolicyArn ∨
         nodeGroupPolicies[i]?.map Input.str = some a.2.PolicyArn)) ∧
    (run okEngine).decls.Nodup :=
  ⟨by decide, by decide, by decide,
   (loops_only_for_attachments okEngine).2.1,
   (loops_only_for_attachments okEngine).2.2.1⟩

end PulumiEksGo
